import Mathlib

/-!
Shallow embedding of the token-acquisition core of `sf_kpi_jwt_runner.py`
(the rotation-tolerant OAuth2 JWT-bearer flow), together with theorems
checking the natural-language specification against it.

Modelling conventions:
* Environment-variable configuration (source lines 15-23) becomes the
  `Config` structure; every field holds the value after Python's
  `str.strip()`, so "missing" is the empty string.
* The preference-snapshot file becomes an explicit `ReadResult` state:
  the file is missing, unreadable, holds malformed JSON, or holds a JSON
  object modelled as an association list (JSON objects have unique keys).
* Whether a write to the snapshot file would succeed is the boolean
  parameter `w` of `save_keymap` (the source swallows any write failure).
* Reading a key file, signing the assertion and POSTing it to the token
  endpoint (source lines 94-114) are network/filesystem effects; they are
  abstracted as an oracle `attempt : KeyEntry → Outcome`.  `Outcome.success`
  models an `resp.ok` response whose JSON body carries `access_token` and
  `instance_url`; `Outcome.httpFailure` models a non-ok response (recorded
  as `(resp.status_code, resp.text)`); `Outcome.exn` models any raised
  exception (unreadable key, signing error, transport error), recorded as
  `(type(e).__name__, str(e))`.
* `os.path.expanduser` is the ambient home-directory expansion; it is the
  uninterpreted parameter `expanduser : String → String`.
* Python's `str.strip` is modelled by `String.trim`, `s.split(",")` by
  `String.splitOn ","`, and `part.split(":", 1)` (split at the first
  occurrence of the delimiter) by `splitFirstColon`.
* `sys.exit(msg)` with a string message terminates the process with status
  1 and prints the message; it is modelled by the terminal result
  `RunResult.configExit msg`.  The `RuntimeError` raised on exhaustion
  (source line 128) interpolates the tenant id and the last error into its
  message; it is modelled structurally by `RunResult.exhausted`.
-/

namespace SfKpiJwt

/-- A key-ring entry `(key_id, path)` as produced by `parse_keyring`
(source lines 49-67). -/
abbrev KeyEntry := String × String

/-- The persisted tenant-to-key-id mapping (a JSON object, modelled as an
association list with unique keys in practice). -/
abbrev Keymap := List (String × String)

/-- Environment configuration, source lines 15-23, after `str.strip()`. -/
structure Config where
  SF_CLIENT_ID : String
  SF_JWT_USERNAME : String
  SF_DOMAIN : String
  SF_PRIVATE_KEY_PATH : String
  SF_KEYS : String
  TENANT_ID : String
deriving DecidableEq

/-- The module-level configuration checks of source lines 28-31: each
`sys.exit` call is modelled by returning its message. -/
def moduleChecks (c : Config) : Option String :=
  if c.SF_CLIENT_ID = "" ∨ c.SF_JWT_USERNAME = "" then
    some "Missing SF_CLIENT_ID or SF_JWT_USERNAME"
  else if c.SF_KEYS = "" ∧ c.SF_PRIVATE_KEY_PATH = "" then
    some "Provide either SF_KEYS (key_id:path,...) or SF_PRIVATE_KEY_PATH"
  else none

/-- State of the preference-snapshot file at `KEYMAP_PATH`. -/
inductive ReadResult
  | missing
  | unreadable
  | malformed
  | content (m : Keymap)
deriving DecidableEq

/-- `load_keymap`, source lines 34-39: `json.load` on the snapshot file,
with every exception (missing file, permission error, corrupt JSON)
caught and turned into the empty record. -/
def load_keymap : ReadResult → Keymap
  | .content m => m
  | .missing => []
  | .unreadable => []
  | .malformed => []

/-- `save_keymap`, source lines 41-47: best-effort whole-file write of the
record (after creating parent directories); `w` tells whether the write
succeeds.  Any failure is swallowed (`except Exception: pass`), leaving
the file as it was. -/
def save_keymap (w : Bool) (disk : ReadResult) (m : Keymap) : ReadResult :=
  if w then .content m else disk

/-- Python `s.split(sep)` for a one-character separator, on the character
list: splitting the empty text yields one empty part, and every
occurrence of the separator starts a new part. -/
def splitOnChar (c : Char) : List Char → List (List Char)
  | [] => [[]]
  | x :: xs =>
    match splitOnChar c xs with
    | [] => if x = c then [[], []] else [[x]]
    | y :: ys => if x = c then [] :: y :: ys else (x :: y) :: ys

/-- Python `s.split(",")`. -/
def splitComma (s : String) : List String :=
  (splitOnChar ',' s.toList).map String.mk

/-- Python `s.strip()`: drop leading and trailing whitespace. -/
def stripStr (s : String) : String :=
  String.mk (((s.toList.dropWhile Char.isWhitespace).reverse.dropWhile
    Char.isWhitespace).reverse)

/-- Python `":" in part`. -/
def hasColon (p : String) : Bool :=
  p.toList.contains ':'

/-- Python `part.split(":", 1)`: the text before the first colon and the
text after it. -/
def splitFirstColon (p : String) : String × String :=
  (String.mk (p.toList.takeWhile (fun c => c != ':')),
   String.mk ((p.toList.dropWhile (fun c => c != ':')).drop 1))

/-- `parse_keyring`, source lines 49-67: split `SF_KEYS` on commas, strip
each part, skip empty parts and parts without a colon, split the rest at
the first colon into `(key_id, path)` with both sides stripped and the
path expanded; fall back to `[("default", SF_PRIVATE_KEY_PATH)]` only
when `SF_KEYS` is empty and the fallback path is not. -/
def parse_keyring (expanduser : String → String) (sfKeys privPath : String) :
    List KeyEntry :=
  if sfKeys ≠ "" then
    (splitComma sfKeys).filterMap (fun part =>
      let p := stripStr part
      if p = "" then none
      else if hasColon p then
        some (stripStr (splitFirstColon p).1,
              expanduser (stripStr (splitFirstColon p).2))
      else none)
  else if privPath ≠ "" then [("default", expanduser privPath)]
  else []

/-- `audience_from_domain`, source lines 69-73. -/
def audience_from_domain (domain : String) : String :=
  if domain = "login" ∨ domain = "test" then
    "https://" ++ domain ++ ".salesforce.com"
  else
    "https://" ++ domain

/-- Python `keymap.get(k)`: the binding of `k`, if any. -/
def dictGet (m : Keymap) (k : String) : Option String :=
  match m with
  | [] => none
  | p :: rest => if p.1 = k then some p.2 else dictGet rest k

/-- Python `keymap[k] = v` on a dict: overwrite the binding of `k` in
place if present (insertion order is kept), otherwise append it. -/
def dictInsert (m : Keymap) (k v : String) : Keymap :=
  match m with
  | [] => [(k, v)]
  | p :: rest => if p.1 = k then (k, v) :: rest else p :: dictInsert rest k v

/-- What one candidate attempt (read key, sign, POST, parse body) can
produce; see the module doc-string for the correspondence to the source. -/
inductive Outcome
  | success (access_token instance_url : String)
  | httpFailure (status : Nat) (body : String)
  | exn (excName excMsg : String)
deriving DecidableEq

/-- The `last_err` value recorded for a failed candidate: either
`(resp.status_code, resp.text)` or `(type(e).__name__, str(e))`. -/
inductive AttemptErr
  | http (status : Nat) (body : String)
  | exn (excName excMsg : String)
deriving DecidableEq

/-- The error a non-success outcome records into `last_err`. -/
def errOf : Outcome → Option AttemptErr
  | .success _ _ => none
  | .httpFailure s b => some (.http s b)
  | .exn n m => some (.exn n m)

/-- True when the outcome does not end the loop with a token. -/
def failed : Outcome → Bool
  | .success _ _ => false
  | .httpFailure _ _ => true
  | .exn _ _ => true

/-- Terminal result of one run of the acquisition core. -/
inductive RunResult
  | configExit (msg : String)
  | exhausted (tenant : String) (lastErr : Option AttemptErr)
  | ok (access_token instance_url : String)
deriving DecidableEq

/-- The candidate loop of source lines 91-128: try each candidate in
order; on success store `tenant ↦ kid`, save, and return the pair; on
failure overwrite `last_err` and continue; when the list is exhausted,
raise carrying the tenant and the last recorded error. -/
def tryKeys (attempt : KeyEntry → Outcome) (tenant : String) (keymap : Keymap)
    (w : Bool) (disk : ReadResult) :
    List KeyEntry → Option AttemptErr → RunResult × ReadResult
  | [], lastErr => (.exhausted tenant lastErr, disk)
  | e :: rest, _ =>
    match attempt e with
    | .success tok url =>
        (.ok tok url, save_keymap w disk (dictInsert keymap tenant e.1))
    | .httpFailure s b => tryKeys attempt tenant keymap w disk rest (some (.http s b))
    | .exn n m => tryKeys attempt tenant keymap w disk rest (some (.exn n m))

/-- The `last_err` value after a run of failing candidates, starting from
`le` (threads the overwrite-on-each-failure behaviour of the loop). -/
def lastErrList (attempt : KeyEntry → Outcome) :
    Option AttemptErr → List KeyEntry → Option AttemptErr
  | le, [] => le
  | _, e :: rest => lastErrList attempt (errOf (attempt e)) rest

/-- The attempt order of source lines 84-89: when a preferred key id is
present and truthy (Python `if preferred_kid:` — `None` and the empty
string are both falsy), candidates whose id equals it come first, the
rest keep their order; otherwise the ring's order is kept. -/
def orderedKeys (keyring : List KeyEntry) (preferred : Option String) :
    List KeyEntry :=
  match preferred with
  | some k =>
      if k ≠ "" then
        keyring.filter (fun p => p.1 == k) ++ keyring.filter (fun p => !(p.1 == k))
      else keyring
  | none => keyring

/-- `get_access_token_via_jwt`, source lines 75-128: parse the ring
(fatal `sys.exit` when empty), load the keymap, look up the tenant's
hint, order the candidates and run the loop. -/
def get_access_token_via_jwt (cfg : Config) (expanduser : String → String)
    (disk : ReadResult) (w : Bool) (attempt : KeyEntry → Outcome) :
    RunResult × ReadResult :=
  if parse_keyring expanduser cfg.SF_KEYS cfg.SF_PRIVATE_KEY_PATH = [] then
    (.configExit "No keys found. Set SF_KEYS or SF_PRIVATE_KEY_PATH.", disk)
  else
    tryKeys attempt cfg.TENANT_ID (load_keymap disk) w disk
      (orderedKeys (parse_keyring expanduser cfg.SF_KEYS cfg.SF_PRIVATE_KEY_PATH)
        (dictGet (load_keymap disk) cfg.TENANT_ID))
      none

/-- Whole-program view of the acquisition path: the module-level config
checks of lines 28-31 run first (at import time), then
`get_access_token_via_jwt`. -/
def runProgram (cfg : Config) (expanduser : String → String)
    (disk : ReadResult) (w : Bool) (attempt : KeyEntry → Outcome) :
    RunResult × ReadResult :=
  match moduleChecks cfg with
  | some msg => (.configExit msg, disk)
  | none => get_access_token_via_jwt cfg expanduser disk w attempt

/-- C7: the audience is `https://login.salesforce.com` for domain
`login`, `https://test.salesforce.com` for `test`, and `https://` ++ the
domain unchanged for every other domain. -/
theorem audience_mapping (d : String) (h1 : d ≠ "login") (h2 : d ≠ "test") :
    audience_from_domain "login" = "https://login.salesforce.com" ∧
    audience_from_domain "test" = "https://test.salesforce.com" ∧
    audience_from_domain d = "https://" ++ d := by
  refine ⟨by decide, by decide, ?_⟩
  unfold audience_from_domain
  rw [if_neg]
  intro h
  rcases h with h | h
  · exact h1 h
  · exact h2 h

/-- C7 witness: the mapping evaluated on a custom domain. -/
theorem audience_mapping_witness :
    audience_from_domain "acme.my.salesforce.com" = "https://acme.my.salesforce.com" :=
  (audience_mapping "acme.my.salesforce.com" (by decide) (by decide)).2.2

lemma filter_not_eq_self_of_filter_eq_nil (l : List KeyEntry) (k : String)
    (h : l.filter (fun p => p.1 == k) = []) :
    l.filter (fun p => !(p.1 == k)) = l := by
  rw [List.filter_eq_self]
  intro a ha
  have := List.filter_eq_nil_iff.mp h a ha
  simp only [Bool.not_eq_true] at this
  simp [this]

/-- C1 (counterexample): the claim's universally quantified reordering
statement fails on the code.  With ring `[(b,p1),(a,p2),(b,p3)]` and
stored hint `b` the code moves *both* `b`-entries to the front, so the
other entries do not keep their original relative order (neither reading
of "that entry is moved to the front" matches the result); and with ring
`[(a,pa),("",pb)]` and stored hint `""` (which exists and matches the
second entry) the order is left unchanged because Python's
`if preferred_kid:` treats the empty string as no hint. -/
theorem attempt_order_counterexample :
    orderedKeys [("b", "p1"), ("a", "p2"), ("b", "p3")] (some "b")
      = [("b", "p1"), ("b", "p3"), ("a", "p2")] ∧
    orderedKeys [("b", "p1"), ("a", "p2"), ("b", "p3")] (some "b")
      ≠ [("b", "p1"), ("a", "p2"), ("b", "p3")] ∧
    orderedKeys [("b", "p1"), ("a", "p2"), ("b", "p3")] (some "b")
      ≠ [("b", "p3"), ("b", "p1"), ("a", "p2")] ∧
    orderedKeys [("a", "pa"), ("", "pb")] (some "")
      = [("a", "pa"), ("", "pb")] := by
  decide

/-- C1 (amended): for every ring and stored hint, a non-empty hint sends
every entry whose id equals the hint to the front (keeping their
relative order) followed by the remaining entries in their original
relative order; when the hint is absent, empty, or matches no entry the
attempt order is the ring's original order unchanged; in particular a
non-empty hint matching exactly one entry moves that entry to the front
with all other entries in their original relative order. -/
theorem attempt_order_spec (ring : List KeyEntry) (k : String) (e : KeyEntry) :
    (orderedKeys ring none = ring) ∧
    (orderedKeys ring (some "") = ring) ∧
    (k ≠ "" → orderedKeys ring (some k)
      = ring.filter (fun p => p.1 == k) ++ ring.filter (fun p => !(p.1 == k))) ∧
    (k ≠ "" → ring.filter (fun p => p.1 == k) = [] →
      orderedKeys ring (some k) = ring) ∧
    (k ≠ "" → ring.filter (fun p => p.1 == k) = [e] →
      orderedKeys ring (some k) = e :: ring.filter (fun p => !(p.1 == k))) := by
  refine ⟨rfl, by simp [orderedKeys], ?_, ?_, ?_⟩
  · intro hk
    simp only [orderedKeys]
    rw [if_pos hk]
  · intro hk h0
    simp only [orderedKeys]
    rw [if_pos hk, h0, List.nil_append]
    exact filter_not_eq_self_of_filter_eq_nil ring k h0
  · intro hk h1
    simp only [orderedKeys]
    rw [if_pos hk, h1, List.singleton_append]

/-- C1 witness: ring `[A,B,C]` with hint `b` gives attempt order
`B,A,C`, and a hint `z` matching no entry leaves the order unchanged. -/
theorem attempt_order_witness :
    orderedKeys [("a", "pa"), ("b", "pb"), ("c", "pc")] (some "b")
      = [("b", "pb"), ("a", "pa"), ("c", "pc")] ∧
    orderedKeys [("a", "pa"), ("b", "pb"), ("c", "pc")] (some "z")
      = [("a", "pa"), ("b", "pb"), ("c", "pc")] := by
  constructor
  · have h := (attempt_order_spec [("a", "pa"), ("b", "pb"), ("c", "pc")] "b"
      ("b", "pb")).2.2.2.2 (by decide) (by decide)
    exact h.trans (by decide)
  · exact (attempt_order_spec [("a", "pa"), ("b", "pb"), ("c", "pc")] "z"
      ("z", "pz")).2.2.2.1 (by decide) (by decide)

lemma orderedKeys_nil (p : Option String) : orderedKeys [] p = [] := by
  cases p with
  | none => rfl
  | some k => simp [orderedKeys]

lemma tryKeys_append_failures (attempt : KeyEntry → Outcome) (t : String)
    (m : Keymap) (w : Bool) (d : ReadResult) (pre rest : List KeyEntry)
    (le : Option AttemptErr) (h : ∀ x ∈ pre, failed (attempt x) = true) :
    tryKeys attempt t m w d (pre ++ rest) le
      = tryKeys attempt t m w d rest (lastErrList attempt le pre) := by
  induction pre generalizing le with
  | nil => rfl
  | cons e pre ih =>
    have he : failed (attempt e) = true := h e (List.mem_cons_self e pre)
    have hrest : ∀ x ∈ pre, failed (attempt x) = true :=
      fun x hx => h x (List.mem_cons_of_mem e hx)
    cases hae : attempt e with
    | success tok url => rw [hae] at he; simp [failed] at he
    | httpFailure s b =>
      simp only [List.cons_append, tryKeys, hae, lastErrList, errOf]
      exact ih _ hrest
    | exn n msg =>
      simp only [List.cons_append, tryKeys, hae, lastErrList, errOf]
      exact ih _ hrest

lemma lastErrList_concat (attempt : KeyEntry → Outcome) (le : Option AttemptErr)
    (l : List KeyEntry) (e : KeyEntry) :
    lastErrList attempt le (l ++ [e]) = errOf (attempt e) := by
  induction l generalizing le with
  | nil => rfl
  | cons x l ih => exact ih _

lemma errOf_isSome_of_failed (o : Outcome) (h : failed o = true) :
    (errOf o).isSome = true := by
  cases o with
  | success tok url => simp [failed] at h
  | httpFailure s b => rfl
  | exn n m => rfl

/-- Helper: when every candidate before `e` in the attempt order fails and
`e`'s exchange succeeds, the acquisition returns the pair and saves the
updated record. -/
lemma get_access_ok (cfg : Config) (eu : String → String) (disk : ReadResult)
    (w : Bool) (attempt : KeyEntry → Outcome) (pre post : List KeyEntry)
    (e : KeyEntry) (tok url : String)
    (hord : orderedKeys (parse_keyring eu cfg.SF_KEYS cfg.SF_PRIVATE_KEY_PATH)
        (dictGet (load_keymap disk) cfg.TENANT_ID) = pre ++ e :: post)
    (hpre : ∀ x ∈ pre, failed (attempt x) = true)
    (hs : attempt e = .success tok url) :
    get_access_token_via_jwt cfg eu disk w attempt
      = (.ok tok url,
         save_keymap w disk (dictInsert (load_keymap disk) cfg.TENANT_ID e.1)) := by
  have hne : parse_keyring eu cfg.SF_KEYS cfg.SF_PRIVATE_KEY_PATH ≠ [] := by
    intro h0
    rw [h0, orderedKeys_nil] at hord
    exact List.cons_ne_nil e post (List.append_eq_nil.mp hord.symm).2
  unfold get_access_token_via_jwt
  rw [if_neg hne, hord, tryKeys_append_failures attempt _ _ _ _ pre (e :: post) none hpre]
  simp only [tryKeys, hs]

lemma dictGet_insert_self (m : Keymap) (k v : String) :
    dictGet (dictInsert m k v) k = some v := by
  induction m with
  | nil => simp [dictGet, dictInsert]
  | cons p rest ih =>
    by_cases hp : p.1 = k
    · simp [dictGet, dictInsert, hp]
    · simp [dictGet, dictInsert, hp, ih]

lemma dictGet_insert_ne (m : Keymap) (k v k' : String) (hne : k' ≠ k) :
    dictGet (dictInsert m k v) k' = dictGet m k' := by
  induction m with
  | nil => simp [dictGet, dictInsert, Ne.symm hne]
  | cons p rest ih =>
    by_cases hp : p.1 = k
    · have hp' : p.1 ≠ k' := by rw [hp]; exact Ne.symm hne
      simp [dictGet, dictInsert, hp, Ne.symm hne, hp']
    · by_cases hq : p.1 = k'
      · simp only [dictInsert, if_neg hp, dictGet, if_pos hq]
      · simp only [dictInsert, if_neg hp, dictGet, if_neg hq, ih]

lemma dictGet_insert_isSome (m : Keymap) (k v t : String)
    (h : (dictGet m t).isSome = true) :
    (dictGet (dictInsert m k v) t).isSome = true := by
  by_cases ht : t = k
  · subst ht; rw [dictGet_insert_self]; rfl
  · rw [dictGet_insert_ne m k v t ht]; exact h

lemma head_of_orderedKeys_hint (ring : List KeyEntry) (kid : String)
    (e : KeyEntry) (hk : kid ≠ "") (he : e ∈ ring) (hid : e.1 = kid) :
    ∃ loc, (orderedKeys ring (some kid)).head? = some (kid, loc) := by
  have hmem : e ∈ ring.filter (fun p => p.1 == kid) :=
    List.mem_filter.mpr ⟨he, by simp [hid]⟩
  obtain ⟨hd, tl, hft⟩ := List.exists_cons_of_ne_nil (List.ne_nil_of_mem hmem)
  have hhd : hd ∈ ring.filter (fun p => p.1 == kid) := by
    rw [hft]; exact List.mem_cons_self hd tl
  have hhd1 : hd.1 = kid := by
    have := (List.mem_filter.mp hhd).2
    simpa using this
  refine ⟨hd.2, ?_⟩
  simp only [orderedKeys, if_pos hk]
  rw [hft, List.cons_append, List.head?_cons]
  rw [← hhd1]

/-- C2 (counterexample): the claim's last clause fails on the code.  With
ring parsed from `"a:pa,:pb"` (second candidate has key id `""`) and an
attempt oracle under which only the `""` candidate's exchange succeeds,
the acquisition does return the pair and persists `tenant ↦ ""`; but the
subsequent acquisition for the same tenant does *not* order that
candidate first: the stored hint `""` is falsy for Python's
`if preferred_kid:`, so the attempt order is the ring's original order,
whose first candidate is `("a","pa")`. -/
theorem first_success_counterexample :
    get_access_token_via_jwt
        ⟨"cid", "user", "login", "", "a:pa,:pb", "t"⟩ id .missing true
        (fun x => if x.2 = "pb" then .success "tok" "url" else .httpFailure 400 "e")
      = (.ok "tok" "url", .content [("t", "")]) ∧
    orderedKeys (parse_keyring id "a:pa,:pb" "")
        (dictGet (load_keymap (.content [("t", "")])) "t")
      = [("a", "pa"), ("", "pb")] ∧
    ([("a", "pa"), ("", "pb")] : List KeyEntry).head? ≠ some ("", "pb") := by
  refine ⟨by decide, by decide, by decide⟩

/-- C2 (amended): the first candidate whose token exchange succeeds causes
the preference record to be updated with (tenant ↦ that candidate's key
id), persisted, and the pair (access token, API host) returned
immediately; no candidate after the first successful one is consulted;
and a subsequent acquisition for the same tenant orders a candidate
bearing that key id first, provided the key id is non-empty (a stored
empty-string key id is treated as no hint and leaves the ring order
unchanged). -/
theorem first_success_wins (cfg : Config) (eu : String → String)
    (disk : ReadResult) (w : Bool) (attempt : KeyEntry → Outcome)
    (pre post : List KeyEntry) (e : KeyEntry) (tok url : String)
    (hord : orderedKeys (parse_keyring eu cfg.SF_KEYS cfg.SF_PRIVATE_KEY_PATH)
        (dictGet (load_keymap disk) cfg.TENANT_ID) = pre ++ e :: post)
    (hpre : ∀ x ∈ pre, failed (attempt x) = true)
    (hs : attempt e = .success tok url) :
    (get_access_token_via_jwt cfg eu disk w attempt
      = (.ok tok url,
         save_keymap w disk (dictInsert (load_keymap disk) cfg.TENANT_ID e.1))) ∧
    (∀ attempt' : KeyEntry → Outcome,
      (∀ x ∈ pre, attempt' x = attempt x) → attempt' e = attempt e →
      get_access_token_via_jwt cfg eu disk w attempt'
        = get_access_token_via_jwt cfg eu disk w attempt) ∧
    (∀ ring' : List KeyEntry, e.1 ≠ "" → e ∈ ring' →
      ∃ loc,
        (orderedKeys ring'
          (dictGet (dictInsert (load_keymap disk) cfg.TENANT_ID e.1)
            cfg.TENANT_ID)).head? = some (e.1, loc)) := by
  refine ⟨get_access_ok cfg eu disk w attempt pre post e tok url hord hpre hs,
    ?_, ?_⟩
  · intro attempt' hagree hagree_e
    have hpre' : ∀ x ∈ pre, failed (attempt' x) = true :=
      fun x hx => (hagree x hx).symm ▸ hpre x hx
    have hs' : attempt' e = .success tok url := hagree_e.trans hs
    rw [get_access_ok cfg eu disk w attempt' pre post e tok url hord hpre' hs',
        get_access_ok cfg eu disk w attempt pre post e tok url hord hpre hs]
  · intro ring' hk he
    rw [dictGet_insert_self]
    exact head_of_orderedKeys_hint ring' e.1 e hk he rfl

/-- C2 witness: a concrete two-candidate run in which the first fails and
the second succeeds, returning the pair and persisting the record. -/
theorem first_success_witness :
    get_access_token_via_jwt ⟨"cid", "user", "login", "", "a:pa,b:pb", "t"⟩
        id .missing true
        (fun x => if x = ("b", "pb") then .success "tok" "host" else .httpFailure 400 "e")
      = (.ok "tok" "host", .content [("t", "b")]) := by
  have h := (first_success_wins ⟨"cid", "user", "login", "", "a:pa,b:pb", "t"⟩
    id .missing true
    (fun x => if x = ("b", "pb") then .success "tok" "host" else .httpFailure 400 "e")
    [("a", "pa")] [] ("b", "pb") "tok" "host"
    (by decide) (by decide) (by decide)).1
  exact h.trans (by decide)

/-- C3: when every candidate in the attempt order fails, the acquisition
fails carrying the requesting tenant and exactly the last candidate's
recorded error, and the persisted store is returned unchanged. -/
theorem exhaustion_spec (cfg : Config) (eu : String → String)
    (disk : ReadResult) (w : Bool) (attempt : KeyEntry → Outcome)
    (l : List KeyEntry) (elast : KeyEntry)
    (hord : orderedKeys (parse_keyring eu cfg.SF_KEYS cfg.SF_PRIVATE_KEY_PATH)
        (dictGet (load_keymap disk) cfg.TENANT_ID) = l ++ [elast])
    (hfail : ∀ x ∈ l ++ [elast], failed (attempt x) = true) :
    get_access_token_via_jwt cfg eu disk w attempt
      = (.exhausted cfg.TENANT_ID (errOf (attempt elast)), disk) ∧
    (errOf (attempt elast)).isSome = true := by
  have hne : parse_keyring eu cfg.SF_KEYS cfg.SF_PRIVATE_KEY_PATH ≠ [] := by
    intro h0
    rw [h0, orderedKeys_nil] at hord
    exact List.cons_ne_nil elast [] (List.append_eq_nil.mp hord.symm).2
  constructor
  · unfold get_access_token_via_jwt
    rw [if_neg hne, hord]
    have hstep := tryKeys_append_failures attempt cfg.TENANT_ID
      (load_keymap disk) w disk (l ++ [elast]) [] none hfail
    rw [List.append_nil] at hstep
    rw [hstep, lastErrList_concat]
    rfl
  · exact errOf_isSome_of_failed _ (hfail elast (by simp))

/-- C3 witness: a two-candidate ring where both candidates fail with
distinct HTTP errors; the call fails with the tenant id and only the
second candidate's error, and the (missing) store is unchanged. -/
theorem exhaustion_witness :
    get_access_token_via_jwt ⟨"cid", "user", "login", "", "a:pa,b:pb", "t"⟩
        id .missing true (fun x => .httpFailure 500 x.1)
      = (.exhausted "t" (some (.http 500 "b")), .missing) := by
  have h := (exhaustion_spec ⟨"cid", "user", "login", "", "a:pa,b:pb", "t"⟩
    id .missing true (fun x => .httpFailure 500 x.1)
    [("a", "pa")] ("b", "pb") (by decide) (by decide)).1
  exact h.trans (by decide)

/-- C4: a missing client identifier, a missing acting-subject identifier,
or an empty parsed key ring makes the program terminate with a non-empty
diagnostic message (via `sys.exit`, status 1), with a result that does
not depend on the attempt oracle — so before any network request — and
as a configuration exit, never as a per-key failure. -/
theorem config_errors_precede_network (cfg : Config) (eu : String → String)
    (h : cfg.SF_CLIENT_ID = "" ∨ cfg.SF_JWT_USERNAME = "" ∨
      parse_keyring eu cfg.SF_KEYS cfg.SF_PRIVATE_KEY_PATH = []) :
    ∃ msg, msg ≠ "" ∧
      ∀ (disk : ReadResult) (w : Bool) (attempt : KeyEntry → Outcome),
        runProgram cfg eu disk w attempt = (.configExit msg, disk) := by
  by_cases hc : cfg.SF_CLIENT_ID = "" ∨ cfg.SF_JWT_USERNAME = ""
  · refine ⟨"Missing SF_CLIENT_ID or SF_JWT_USERNAME", by decide,
      fun disk w attempt => ?_⟩
    unfold runProgram moduleChecks
    rw [if_pos hc]
  · have hring : parse_keyring eu cfg.SF_KEYS cfg.SF_PRIVATE_KEY_PATH = [] := by
      rcases h with h | h | h
      · exact absurd (Or.inl h) hc
      · exact absurd (Or.inr h) hc
      · exact h
    by_cases hk : cfg.SF_KEYS = "" ∧ cfg.SF_PRIVATE_KEY_PATH = ""
    · refine ⟨"Provide either SF_KEYS (key_id:path,...) or SF_PRIVATE_KEY_PATH",
        by decide, fun disk w attempt => ?_⟩
      unfold runProgram moduleChecks
      rw [if_neg hc, if_pos hk]
    · refine ⟨"No keys found. Set SF_KEYS or SF_PRIVATE_KEY_PATH.", by decide,
        fun disk w attempt => ?_⟩
      unfold runProgram moduleChecks
      rw [if_neg hc, if_neg hk]
      unfold get_access_token_via_jwt
      rw [if_pos hring]

/-- C4 witness: a configuration with a missing client identifier exits
with a message, independently of disk state and attempt oracle. -/
theorem config_errors_witness :
    ∃ msg, msg ≠ "" ∧
      ∀ (disk : ReadResult) (w : Bool) (attempt : KeyEntry → Outcome),
        runProgram ⟨"", "user", "login", "p", "k:v", "t"⟩ id disk w attempt
          = (.configExit msg, disk) :=
  config_errors_precede_network ⟨"", "user", "login", "p", "k:v", "t"⟩ id
    (Or.inl rfl)

lemma tryKeys_fst_eq (a : KeyEntry → Outcome) (t : String) (m : Keymap)
    (w w' : Bool) (d d' : ReadResult) (l : List KeyEntry)
    (le : Option AttemptErr) :
    (tryKeys a t m w d l le).1 = (tryKeys a t m w' d' l le).1 := by
  induction l generalizing le with
  | nil => rfl
  | cons e rest ih =>
    cases hae : a e with
    | success tok url => simp [tryKeys, hae]
    | httpFailure s b =>
      simp only [tryKeys, hae]
      exact ih _
    | exn n msg =>
      simp only [tryKeys, hae]
      exact ih _

lemma get_access_fst_eq (cfg : Config) (eu : String → String)
    (a : KeyEntry → Outcome) (d d' : ReadResult) (w w' : Bool)
    (h : load_keymap d = load_keymap d') :
    (get_access_token_via_jwt cfg eu d w a).1
      = (get_access_token_via_jwt cfg eu d' w' a).1 := by
  unfold get_access_token_via_jwt
  by_cases hr : parse_keyring eu cfg.SF_KEYS cfg.SF_PRIVATE_KEY_PATH = []
  · rw [if_pos hr, if_pos hr]
  · rw [if_neg hr, if_neg hr, h]
    exact tryKeys_fst_eq a cfg.TENANT_ID (load_keymap d') w w' d d' _ none

lemma runProgram_fst_eq (cfg : Config) (eu : String → String)
    (a : KeyEntry → Outcome) (d d' : ReadResult) (w w' : Bool)
    (h : load_keymap d = load_keymap d') :
    (runProgram cfg eu d w a).1 = (runProgram cfg eu d' w' a).1 := by
  unfold runProgram
  cases hm : moduleChecks cfg with
  | some msg => rfl
  | none => exact get_access_fst_eq cfg eu a d d' w w' h

/-- C5: on any read or parse failure of the preference snapshot (missing
file, unreadable file, malformed JSON) `load_keymap` returns the empty
record, and the acquisition result is the same as with an empty
persisted record — a load failure is never fatal to the call. -/
theorem load_resilience (cfg : Config) (eu : String → String) (w : Bool)
    (attempt : KeyEntry → Outcome) (d : ReadResult)
    (hd : d = .missing ∨ d = .unreadable ∨ d = .malformed) :
    load_keymap d = [] ∧
    (runProgram cfg eu d w attempt).1
      = (runProgram cfg eu (.content []) w attempt).1 := by
  have hl : load_keymap d = [] := by
    rcases hd with h | h | h <;> rw [h] <;> rfl
  exact ⟨hl, runProgram_fst_eq cfg eu attempt d (.content []) w w (by rw [hl]; rfl)⟩

/-- C5 witness: a corrupt snapshot behaves like an empty record on a
concrete run. -/
theorem load_resilience_witness :
    load_keymap .malformed = [] ∧
    (runProgram ⟨"cid", "user", "login", "", "a:pa", "t"⟩ id .malformed true
        (fun _ => .httpFailure 400 "e")).1
      = (runProgram ⟨"cid", "user", "login", "", "a:pa", "t"⟩ id (.content []) true
        (fun _ => .httpFailure 400 "e")).1 :=
  load_resilience ⟨"cid", "user", "login", "", "a:pa", "t"⟩ id true
    (fun _ => .httpFailure 400 "e") .malformed (Or.inr (Or.inr rfl))

/-- C6: a failing snapshot write leaves the file untouched and is
swallowed; the acquisition result never depends on whether the write
succeeds, and in particular a successful token exchange still returns
the (access token, API host) pair when the save fails. -/
theorem save_best_effort (cfg : Config) (eu : String → String)
    (disk : ReadResult) (attempt : KeyEntry → Outcome) (m : Keymap)
    (pre post : List KeyEntry) (e : KeyEntry) (tok url : String)
    (hord : orderedKeys (parse_keyring eu cfg.SF_KEYS cfg.SF_PRIVATE_KEY_PATH)
        (dictGet (load_keymap disk) cfg.TENANT_ID) = pre ++ e :: post)
    (hpre : ∀ x ∈ pre, failed (attempt x) = true)
    (hs : attempt e = .success tok url) :
    (∀ d : ReadResult, save_keymap false d m = d) ∧
    (∀ w w' : Bool,
      (runProgram cfg eu disk w attempt).1 = (runProgram cfg eu disk w' attempt).1) ∧
    (get_access_token_via_jwt cfg eu disk false attempt = (.ok tok url, disk)) := by
  refine ⟨fun d => rfl,
    fun w w' => runProgram_fst_eq cfg eu attempt disk disk w w' rfl, ?_⟩
  exact get_access_ok cfg eu disk false attempt pre post e tok url hord hpre hs

/-- C6 witness: with a failing write, a successful exchange still returns
the pair and the disk is untouched. -/
theorem save_best_effort_witness :
    get_access_token_via_jwt ⟨"cid", "user", "login", "", "a:pa,b:pb", "t"⟩
        id .unreadable false
        (fun x => if x = ("b", "pb") then .success "tok" "host" else .exn "OSError" "no file")
      = (.ok "tok" "host", .unreadable) :=
  (save_best_effort ⟨"cid", "user", "login", "", "a:pa,b:pb", "t"⟩ id .unreadable
    (fun x => if x = ("b", "pb") then .success "tok" "host" else .exn "OSError" "no file")
    [] [("a", "pa")] [] ("b", "pb") "tok" "host"
    (by decide) (by decide) (by decide)).2.2

/-- C9: on a successful acquisition the record passed to the save equals
the loaded record with only the requesting tenant's entry added or
overwritten (set to the succeeding candidate's key id); every other
tenant's entry is unchanged and no entry is deleted. -/
theorem preference_frame (cfg : Config) (eu : String → String)
    (disk : ReadResult) (attempt : KeyEntry → Outcome)
    (pre post : List KeyEntry) (e : KeyEntry) (tok url : String)
    (hord : orderedKeys (parse_keyring eu cfg.SF_KEYS cfg.SF_PRIVATE_KEY_PATH)
        (dictGet (load_keymap disk) cfg.TENANT_ID) = pre ++ e :: post)
    (hpre : ∀ x ∈ pre, failed (attempt x) = true)
    (hs : attempt e = .success tok url) :
    ((get_access_token_via_jwt cfg eu disk true attempt).2
      = .content (dictInsert (load_keymap disk) cfg.TENANT_ID e.1)) ∧
    (dictGet (dictInsert (load_keymap disk) cfg.TENANT_ID e.1) cfg.TENANT_ID
      = some e.1) ∧
    (∀ t, t ≠ cfg.TENANT_ID →
      dictGet (dictInsert (load_keymap disk) cfg.TENANT_ID e.1) t
        = dictGet (load_keymap disk) t) ∧
    (∀ t, (dictGet (load_keymap disk) t).isSome = true →
      (dictGet (dictInsert (load_keymap disk) cfg.TENANT_ID e.1) t).isSome = true) := by
  refine ⟨?_, dictGet_insert_self _ _ _,
    fun t ht => dictGet_insert_ne _ _ _ t ht,
    fun t ht => dictGet_insert_isSome _ _ _ t ht⟩
  rw [get_access_ok cfg eu disk true attempt pre post e tok url hord hpre hs]
  rfl

/-- C9 witness: a successful run starting from a snapshot holding another
tenant's entry and a stale entry for the requesting tenant saves the
loaded record with only the requesting tenant's entry overwritten. -/
theorem preference_frame_witness :
    (get_access_token_via_jwt ⟨"cid", "user", "login", "", "a:pa,b:pb", "t"⟩
        id (.content [("other", "a"), ("t", "a")]) true
        (fun x => if x = ("b", "pb") then .success "tok" "host" else .httpFailure 400 "e")).2
      = .content [("other", "a"), ("t", "b")] := by
  have h := (preference_frame ⟨"cid", "user", "login", "", "a:pa,b:pb", "t"⟩
    id (.content [("other", "a"), ("t", "a")])
    (fun x => if x = ("b", "pb") then .success "tok" "host" else .httpFailure 400 "e")
    [("a", "pa")] [] ("b", "pb") "tok" "host"
    (by decide) (by decide) (by decide)).1
  exact h.trans (by decide)

/-- C8: for a non-empty delimited specification, parsing yields exactly
the stripped entries that contain the `:` delimiter, in their original
order, each split into `(id, location)` at the first delimiter with
surrounding whitespace stripped (the location then goes through the
home-directory expansion, `os.path.expanduser`); entries missing the
delimiter — including empty entries — are silently skipped, and parsing
is total (it never aborts construction). -/
theorem keyring_parsing (eu : String → String) (s priv : String)
    (hs : s ≠ "") :
    parse_keyring eu s priv
      = (((splitComma s).map stripStr).filter (fun p => hasColon p)).map
          (fun p => (stripStr (splitFirstColon p).1,
                     eu (stripStr (splitFirstColon p).2))) := by
  unfold parse_keyring
  rw [if_pos hs]
  generalize splitComma s = l
  induction l with
  | nil => rfl
  | cons part l ih =>
    by_cases hp : stripStr part = ""
    · have hempty : hasColon "" = false := rfl
      simp only [List.filterMap_cons, List.map_cons, List.filter_cons, hp, hempty,
        Bool.false_eq_true, ite_false, ite_true, ih]
    · by_cases hc : hasColon (stripStr part) = true
      · simp only [List.filterMap_cons, List.map_cons, List.filter_cons, hc,
          if_neg hp, ite_true, ih]
      · have hc0 : hasColon (stripStr part) = false := Bool.eq_false_iff.mpr hc
        simp only [List.filterMap_cons, List.map_cons, List.filter_cons, hc0,
          if_neg hp, Bool.false_eq_true, ite_false, ih]

/-- C8 witness: a specification with whitespace, an entry without the
delimiter, empty entries, and a location containing a second delimiter
parses to exactly the two well-formed entries, split at the first colon
and stripped. -/
theorem keyring_parsing_witness :
    parse_keyring id " 2025 : /k1.pem , bad,, 2030:/home:/k2.pem" "/fb.pem"
      = [("2025", "/k1.pem"), ("2030", "/home:/k2.pem")] := by
  have h := keyring_parsing id " 2025 : /k1.pem , bad,, 2030:/home:/k2.pem"
    "/fb.pem" (by decide)
  exact h.trans (by decide)

lemma parse_keyring_nil_of_no_colon (eu : String → String) (s p : String)
    (hs : s ≠ "") (hnc : ∀ part ∈ splitComma s, hasColon (stripStr part) = false) :
    parse_keyring eu s p = [] := by
  unfold parse_keyring
  rw [if_pos hs]
  rw [List.filterMap_eq_nil_iff]
  intro part hpart
  have hc := hnc part hpart
  simp only [hc, Bool.false_eq_true, ite_false, ite_self]

/-- C10 (implicit): the single fallback key location is consulted only
when the delimited key specification is empty — for a non-empty
specification the parse result does not depend on the fallback at all;
a non-empty specification in which no entry contains the delimiter
parses to the empty ring; and in that case the acquisition aborts with
the empty-ring configuration error even when a fallback location is
configured. -/
theorem fallback_only_when_keys_empty (eu : String → String) (s p p' : String)
    (cfg : Config) (disk : ReadResult) (w : Bool)
    (attempt : KeyEntry → Outcome) :
    (s ≠ "" → parse_keyring eu s p = parse_keyring eu s p') ∧
    (s ≠ "" → (∀ part ∈ splitComma s, hasColon (stripStr part) = false) →
      parse_keyring eu s p = []) ∧
    (cfg.SF_CLIENT_ID ≠ "" → cfg.SF_JWT_USERNAME ≠ "" → cfg.SF_KEYS ≠ "" →
      (∀ part ∈ splitComma cfg.SF_KEYS, hasColon (stripStr part) = false) →
      runProgram cfg eu disk w attempt
        = (.configExit "No keys found. Set SF_KEYS or SF_PRIVATE_KEY_PATH.", disk)) := by
  refine ⟨?_, parse_keyring_nil_of_no_colon eu s p, ?_⟩
  · intro h
    unfold parse_keyring
    rw [if_pos h, if_pos h]
  · intro h1 h2 h3 hnc
    have hring : parse_keyring eu cfg.SF_KEYS cfg.SF_PRIVATE_KEY_PATH = [] :=
      parse_keyring_nil_of_no_colon eu cfg.SF_KEYS cfg.SF_PRIVATE_KEY_PATH h3 hnc
    have hc : ¬(cfg.SF_CLIENT_ID = "" ∨ cfg.SF_JWT_USERNAME = "") := by
      rintro (h | h)
      · exact h1 h
      · exact h2 h
    have hk : ¬(cfg.SF_KEYS = "" ∧ cfg.SF_PRIVATE_KEY_PATH = "") := fun hand => h3 hand.1
    unfold runProgram moduleChecks
    rw [if_neg hc, if_neg hk]
    unfold get_access_token_via_jwt
    rw [if_pos hring]

/-- C10 witness: a non-empty specification with no delimiter plus a
configured fallback location still aborts with the empty-ring
configuration error. -/
theorem fallback_witness :
    runProgram ⟨"cid", "user", "login", "/fallback.pem", "nodelim", "t"⟩ id
        .missing true (fun _ => .success "tok" "host")
      = (.configExit "No keys found. Set SF_KEYS or SF_PRIVATE_KEY_PATH.", .missing) :=
  (fallback_only_when_keys_empty id "nodelim" "/fallback.pem" "/fallback.pem"
    ⟨"cid", "user", "login", "/fallback.pem", "nodelim", "t"⟩ .missing true
    (fun _ => .success "tok" "host")).2.2
    (by decide) (by decide) (by decide) (by decide)

end SfKpiJwt
